import Mathlib

/-!
Verification of the web-scraper pipeline (temp_parser.py): a shallow
embedding of its listing parser, product parser, dynamic price extractor,
scrape orchestrator, retry configuration and CSV writer, together with
theorems settling the frozen specification claims.

Python strings are Lean Strings, Python floats produced by parsing price
text are exact decimals Dec (the program only parses, stores and writes
these values, it never computes with them, so the decimal value a price
text denotes embeds the float faithfully), Python ints are Int, Python
dicts are association lists in insertion order, Python exceptions are an
explicit error type (PyErr) threaded through Except, and the network plus
browser world is an explicit environment argument.
-/

/-- Python exception kinds that the scraper code can raise and catch. -/
inductive PyErr where
  | attrError
  | keyError
  | valueError
  | indexError
deriving DecidableEq, Repr

/-- Value of a decimal digit character, none for a non-digit.
Models the per-character acceptance of Python int() and float(). -/
def digitVal (c : Char) : Option Nat :=
  if 48 ≤ c.toNat ∧ c.toNat ≤ 57 then some (c.toNat - 48) else none

/-- One step of accumulating a decimal number over characters. -/
def digitStep (acc : Option Nat) (c : Char) : Option Nat :=
  match acc, digitVal c with
  | some a, some d => some (a * 10 + d)
  | _, _ => none

/-- Parse a nonempty all-digit character list as a Nat, none otherwise. -/
def parseNatCore (cs : List Char) : Option Nat :=
  if cs.isEmpty then none else cs.foldl digitStep (some 0)

/-- Python int() on a string: optional leading minus sign, then a
nonempty digit run.  (The scraper only ever feeds it attribute values and
whitespace-free tokens, so the whitespace stripping of int() is moot.) -/
def pyIntCore : List Char → Option Int
  | [] => none
  | c :: rest =>
      if c = '-' then (parseNatCore rest).map (fun n => -(n : Int))
      else (parseNatCore (c :: rest)).map (fun n => (n : Int))

def pyInt (s : String) : Option Int :=
  pyIntCore s.toList

/-- An exact decimal number, denoting mant / 10 ^ exp.  Values built by
parseFloat are canonical (exp minimal), so Dec equality coincides with
equality of the denoted numbers, hence with Python float equality on the
price texts the scraper reads. -/
structure Dec where
  mant : Nat
  exp : Nat
deriving DecidableEq, Repr

/-- Canonicalize a decimal by dropping trailing fractional zero digits. -/
def decNormAux : Nat → Nat → Dec
  | m, 0 => ⟨m, 0⟩
  | m, e + 1 => if m % 10 = 0 then decNormAux (m / 10) e else ⟨m, e + 1⟩

/-- Split a character list at every dot, keeping empty segments
(the segment behavior of Python str.split(".") used via float()). -/
def splitDotAux : List Char → List Char → List (List Char)
  | [], cur => [cur.reverse]
  | c :: rest, cur =>
      if c = '.' then cur.reverse :: splitDotAux rest []
      else splitDotAux rest (c :: cur)

/-- Python float() on the plain decimal strings the scraper feeds it:
digits with at most one decimal point and at least one digit overall
(scientific notation, signs and inf/nan never occur in price texts). -/
def parseFloat (s : String) : Option Dec :=
  match splitDotAux s.toList [] with
  | [a] => (parseNatCore a).map (fun n => Dec.mk n 0)
  | [a, b] =>
      if a.isEmpty && b.isEmpty then none
      else
        match (if a.isEmpty then some 0 else parseNatCore a),
              (if b.isEmpty then some 0 else parseNatCore b) with
        | some ia, some ib => some (decNormAux (ia * 10 ^ b.length + ib) b.length)
        | _, _ => none
  | _ => none

/-- Python str.replace applied to drop every currency symbol. -/
def stripDollar (s : String) : String :=
  String.mk (s.toList.filter (fun c => c ≠ '$'))

/-- Python str.split() with no argument: split on whitespace runs,
producing no empty pieces. -/
def splitWsAux : List Char → List Char → List String
  | [], cur => if cur.isEmpty then [] else [String.mk cur.reverse]
  | c :: rest, cur =>
      if c.isWhitespace then
        if cur.isEmpty then splitWsAux rest []
        else String.mk cur.reverse :: splitWsAux rest []
      else splitWsAux rest (c :: cur)

def splitWs (s : String) : List String :=
  splitWsAux s.toList []

/-- Decimal digit character for a digit value (used only to build concrete
page-number texts for claims about pagination markup). -/
def digitChar (d : Nat) : Char :=
  match d with
  | 0 => '0'
  | 1 => '1'
  | 2 => '2'
  | 3 => '3'
  | 4 => '4'
  | 5 => '5'
  | 6 => '6'
  | 7 => '7'
  | 8 => '8'
  | 9 => '9'
  | _ => '*'

/-- Digit list (most significant first) of a positive Nat; empty for 0. -/
def toDecimalAux (n : Nat) : List Char :=
  if h : n = 0 then []
  else toDecimalAux (n / 10) ++ [digitChar (n % 10)]
decreasing_by
  exact Nat.div_lt_self (Nat.pos_of_ne_zero h) (by omega)

/-- Decimal numeral string of a Nat. -/
def toDecimal (n : Nat) : String :=
  if n = 0 then "0" else String.mk (toDecimalAux n)

theorem digitVal_digitChar (d : Nat) (hd : d < 10) :
    digitVal (digitChar d) = some d := by
  interval_cases d <;> decide

theorem foldl_digitStep_append (cs : List Char) (c : Char) (a : Option Nat) :
    (cs ++ [c]).foldl digitStep a = digitStep (cs.foldl digitStep a) c := by
  simp [List.foldl_append]

theorem foldl_toDecimalAux (n : Nat) (hn : 0 < n) :
    (toDecimalAux n).foldl digitStep (some 0) = some n := by
  induction n using Nat.strong_induction_on with
  | _ n ih =>
    rw [toDecimalAux]
    rw [dif_neg (by omega)]
    rw [foldl_digitStep_append]
    by_cases h10 : n / 10 = 0
    · rw [h10, toDecimalAux]
      simp only [dif_pos rfl, List.foldl_nil, digitStep,
        digitVal_digitChar (n % 10) (Nat.mod_lt n (by omega))]
      have : n % 10 = n := by omega
      simp [this]
    · rw [ih (n / 10) (Nat.div_lt_self (by omega) (by omega))
        (Nat.pos_of_ne_zero h10)]
      simp only [digitStep, digitVal_digitChar (n % 10) (Nat.mod_lt n (by omega))]
      have : n / 10 * 10 + n % 10 = n := by omega
      simp [this]

theorem toDecimalAux_ne_nil (n : Nat) (hn : 0 < n) : toDecimalAux n ≠ [] := by
  rw [toDecimalAux, dif_neg (by omega)]
  simp

theorem parseNatCore_toDecimal (n : Nat) (hn : 0 < n) :
    parseNatCore (toDecimal n).toList = some n := by
  rw [toDecimal, if_neg (by omega)]
  show parseNatCore (toDecimalAux n) = some n
  rw [parseNatCore, if_neg (by simp [List.isEmpty_iff, toDecimalAux_ne_nil n hn])]
  exact foldl_toDecimalAux n hn

theorem foldl_digitStep_none (cs : List Char) : cs.foldl digitStep none = none := by
  induction cs with
  | nil => rfl
  | cons c rest ih => simp [List.foldl_cons, digitStep, ih]

theorem pyInt_of_parseNatCore (s : String) (n : Nat)
    (h : parseNatCore s.toList = some n) : pyInt s = some (n : Int) := by
  rw [pyInt]
  match hmatch : s.toList with
  | [] =>
    rw [hmatch] at h
    simp [parseNatCore] at h
  | c :: rest =>
    rw [hmatch] at h
    have hc : c ≠ '-' := by
      intro hc
      rw [hc] at h
      rw [parseNatCore, if_neg (by simp)] at h
      have h0 : digitStep (some 0) '-' = none := by decide
      rw [List.foldl_cons, h0, foldl_digitStep_none] at h
      exact Option.noConfusion h
    simp only [pyIntCore, if_neg hc, h]
    rfl

theorem pyInt_toDecimal (n : Nat) (hn : 0 < n) :
    pyInt (toDecimal n) = some (n : Int) := by
  exact pyInt_of_parseNatCore _ n (parseNatCore_toDecimal n hn)

/-!
The document model.  A listing-page markup is reduced to the two queries
the code performs on it: select_one(".pagination") followed by
select("li"), and select(".card-body").  A product card block is reduced
to the elements the product parser selects, each an Option because
select_one returns None when nothing matches, and to the browser-side
world behind the product detail link.
-/

/-- An li entry of the pagination control: only its text is read. -/
structure LiEl where
  text : String
deriving DecidableEq, Repr

/-- The element found by select_one(".title") inside a card: the code
reads its title attribute and its href attribute; a missing attribute
raises KeyError on subscripting. -/
structure TitleEl where
  titleAttr : Option String
  hrefAttr : Option String
deriving DecidableEq, Repr

/-- An element of which only the text content is read. -/
structure TextEl where
  text : String
deriving DecidableEq, Repr

/-- One button of the swatches control group on a detail page, as the
browser reports it: its disabled property, its value property, whether
interacting with it (click, or locating and reading the price element
afterwards) raises a WebDriver exception, and the price text displayed
after it is clicked. -/
structure SwatchButton where
  disabled : Bool
  clickFails : Bool
  value : String
  priceText : String
deriving DecidableEq, Repr

/-- The browser-side world behind one product detail URL: whether
navigation or locating the swatches control group raises before the
button loop starts, and the buttons found inside the group, in document
order. -/
structure DetailEnv where
  preFails : Bool
  buttons : List SwatchButton
deriving DecidableEq, Repr

/-- One product card block (.card-body), reduced to the elements the
parser selects.  ratingAttr is the data-rating attribute of the element
found by select_one("[data-rating]") when one exists: the attribute
selector guarantees the attribute is present on a found element. -/
structure ProductBlock where
  titleEl : Option TitleEl
  descriptionEl : Option TextEl
  priceEl : Option TextEl
  ratingAttr : Option String
  reviewEl : Option TextEl
  detail : DetailEnv
deriving DecidableEq, Repr

/-- One listing-page markup, reduced to the two selections performed on
it: the li entries of the pagination control (none when
select_one(".pagination") finds nothing) and the product card blocks in
document order. -/
structure Markup where
  pagination : Option (List LiEl)
  cards : List ProductBlock
deriving DecidableEq, Repr

/-- The Product dataclass.  Field order is the declaration order of the
source dataclass; additional_info is the dict passed as
additional_info = insertion-ordered association list. -/
structure Product where
  title : String
  description : String
  price : Dec
  rating : Int
  num_of_reviews : Int
  additional_info : List (String × List (String × Dec))
deriving DecidableEq, Repr

/-- Python dict assignment d[k] = v: replaces the value in place when the
key exists, otherwise appends the pair at the end (insertion order). -/
def dictInsert (d : List (String × Dec)) (k : String) (v : Dec) :
    List (String × Dec) :=
  if d.any (fun kv => kv.1 = k) then
    d.map (fun kv => if kv.1 = k then (k, v) else kv)
  else d ++ [(k, v)]

/-- The button loop of parse_hdd_block_prices.  Disabled buttons are
skipped; for an enabled button the code clicks it, reads the displayed
price text, strips the dollar sign and parses the float, and stores it in
the dict under the button value.  A WebDriver exception at the click/read
(clickFails) or a ValueError from float() escapes the loop and is caught
by the except handler of the function, which returns the empty dict:
the accumulator is discarded. -/
def hddLoop : List SwatchButton → List (String × Dec) → List (String × Dec)
  | [], acc => acc
  | b :: rest, acc =>
      if b.disabled then hddLoop rest acc
      else if b.clickFails then []
      else
        match parseFloat (stripDollar b.priceText) with
        | none => []
        | some v => hddLoop rest (dictInsert acc b.value v)

/-- parse_hdd_block_prices run against the detail environment reached
through the href: returns the empty dict when navigation or locating the
swatches group raises, otherwise runs the button loop. -/
def hddRun (env : DetailEnv) : List (String × Dec) :=
  if env.preFails then [] else hddLoop env.buttons []

/-- parse_hdd_block_prices(product_soup): builds the absolute detail URL
from the href of the .title element (an AttributeError from a missing
.title element or a KeyError from a missing href is caught by the except
handler, yielding the empty dict), then drives the browser through the
detail environment.  Never raises. -/
def parse_hdd_block_prices (block : ProductBlock) : List (String × Dec) :=
  match block.titleEl with
  | none => []
  | some t =>
      match t.hrefAttr with
      | none => []
      | some _ => hddRun block.detail

/-- parse_single_product(product): extracts the static fields in source
order after computing the hdd prices; any failing selection, missing
attribute or failing numeric parse raises, and the function has no
handler, so the error propagates to the caller. -/
def parse_single_product (block : ProductBlock) : Except PyErr Product :=
  let hdd := parse_hdd_block_prices block
  match block.titleEl with
  | none => .error .attrError
  | some tEl =>
      match tEl.titleAttr with
      | none => .error .keyError
      | some titleVal =>
          match block.descriptionEl with
          | none => .error .attrError
          | some dEl =>
              match block.priceEl with
              | none => .error .attrError
              | some pEl =>
                  match parseFloat (stripDollar pEl.text) with
                  | none => .error .valueError
                  | some priceVal =>
                      match block.ratingAttr with
                      | none => .error .attrError
                      | some rStr =>
                          match pyInt rStr with
                          | none => .error .valueError
                          | some ratingVal =>
                              match block.reviewEl with
                              | none => .error .attrError
                              | some revEl =>
                                  match (splitWs revEl.text).head? with
                                  | none => .error .indexError
                                  | some tok =>
                                      match pyInt tok with
                                      | none => .error .valueError
                                      | some revVal =>
                                          .ok {
                                            title := titleVal,
                                            description := dEl.text,
                                            price := priceVal,
                                            rating := ratingVal,
                                            num_of_reviews := revVal,
                                            additional_info :=
                                              [("hdd_prices", hdd)] }

/-- get_num_pages(page_soup): 1 when select_one(".pagination") finds
nothing; otherwise the text of the second-to-last li entry parsed by
int().  The negative index [-2] raises IndexError when fewer than two
entries exist, and int() raises ValueError on a non-numeric text. -/
def get_num_pages (m : Markup) : Except PyErr Int :=
  match m.pagination with
  | none => .ok 1
  | some lis =>
      if h : 2 ≤ lis.length then
        match pyInt (lis.get ⟨lis.length - 2, by omega⟩).text with
        | none => .error .valueError
        | some k => .ok k
      else .error .indexError

/-- get_single_page_products(page_soup): parses every .card-body block in
document order; the list comprehension stops at the first raising block,
so the whole call errors as soon as one block does. -/
def get_single_page_products (m : Markup) : Except PyErr (List Product) :=
  m.cards.mapM parse_single_product

/-- The page loop of get_laptop_page_products over page numbers 2..N:
fetches each page (none models a requests exception after retries),
parses it, and extends the accumulator; any failure escapes to the
handler of the orchestrator.  none models that escape. -/
def pagesLoop (fetch : Nat → Option Markup) :
    List Nat → List Product → Option (List Product)
  | [], acc => some acc
  | p :: rest, acc =>
      match fetch p with
      | none => none
      | some m =>
          match get_single_page_products m with
          | .error _ => none
          | .ok prods => pagesLoop fetch rest (acc ++ prods)

/-- get_laptop_page_products(): fetches page 1, parses its products,
reads the page count, then loops over pages 2..N appending products.
The surrounding try/except turns every failure - a fetch failure on any
page, a parse error in any block, a pagination fault - into the empty
list, discarding everything accumulated so far.  fetch p = none models a
requests exception for the GET of page p (page 1 carries no page
parameter; pages 2..N pass page=p). -/
def get_laptop_page_products (fetch : Nat → Option Markup) : List Product :=
  match fetch 1 with
  | none => []
  | some m1 =>
      match get_single_page_products m1 with
      | .error _ => []
      | .ok firstProds =>
          match get_num_pages m1 with
          | .error _ => []
          | .ok n =>
              match pagesLoop fetch (List.range' 2 (n - 1).toNat) firstProds with
              | none => []
              | some allProds => allProds

/-- The retry configuration mounted on the HTTP session. -/
structure RetryConfig where
  total : Nat
  backoff_factor : Nat
  status_forcelist : List Nat
  allowed_methods : List String
deriving DecidableEq, Repr

/-- retry_strategy: total=3 (the source comments one initial attempt plus
two repeats), backoff_factor=1, the five transient status codes, GET
only. -/
def retry_strategy : RetryConfig :=
  ⟨3, 1, [429, 500, 502, 503, 504], ["GET"]⟩

/-- Modelled from the spec: the retry decision of the mounted HTTP
adapter (the adapter itself is an external collaborator, not part of this
repository).  A request is retried only when its method is allowed, its
status is in the force list and the retry budget is not exhausted. -/
def shouldRetry (cfg : RetryConfig) (method : String) (status : Nat)
    (retriesSoFar : Nat) : Bool :=
  decide (method ∈ cfg.allowed_methods)
    && decide (status ∈ cfg.status_forcelist)
    && decide (retriesSoFar < cfg.total)

/-- Modelled from the spec: the backoff before retry number k (1-based)
is backoff_factor * 2 ^ (k - 1) time units, so 1, 2, 4 for factor 1 as
the source comments. -/
def backoff (cfg : RetryConfig) (k : Nat) : Nat :=
  cfg.backoff_factor * 2 ^ (k - 1)

/-- A cell of the CSV output, as astuple produces it from a Product. -/
inductive CsvCell where
  | str (s : String)
  | num (q : Dec)
  | intc (i : Int)
  | dict (d : List (String × List (String × Dec)))
deriving DecidableEq, Repr

/-- PRODUCT_FIELDS = [field.name for field in fields(Product)]: the
declared field names of the dataclass, in declaration order. -/
def PRODUCT_FIELDS : List String :=
  ["title", "description", "price", "rating", "num_of_reviews", "additional_info"]

/-- astuple(product): the field values in declaration order. -/
def astupleProduct (p : Product) : List CsvCell :=
  [.str p.title, .str p.description, .num p.price, .intc p.rating,
    .intc p.num_of_reviews, .dict p.additional_info]

/-- The cell a Product contributes to the column named fieldName. -/
def fieldCell (p : Product) (fieldName : String) : Option CsvCell :=
  if fieldName = "title" then some (.str p.title)
  else if fieldName = "description" then some (.str p.description)
  else if fieldName = "price" then some (.num p.price)
  else if fieldName = "rating" then some (.intc p.rating)
  else if fieldName = "num_of_reviews" then some (.intc p.num_of_reviews)
  else if fieldName = "additional_info" then some (.dict p.additional_info)
  else none

/-- write_products_to_csv(products) as the rows it writes: the header row
of PRODUCT_FIELDS followed by one astuple row per product. -/
def write_products_to_csv (products : List Product) : List (List CsvCell) :=
  (PRODUCT_FIELDS.map CsvCell.str) :: products.map astupleProduct

/-!  Claims about the listing parser's page-count extraction.  -/

/-- The li entries of a pagination control listing pages 1..k followed by
a next control: the decimal numerals of 1..k, then a non-numeric entry. -/
def paginationListing (k : Nat) : List LiEl :=
  (List.range k).map (fun i => LiEl.mk (toDecimal (i + 1))) ++ [LiEl.mk "next"]

theorem paginationListing_length (k : Nat) :
    (paginationListing k).length = k + 1 := by
  simp [paginationListing]

theorem paginationListing_get (k : Nat) (hk : 1 ≤ k)
    (h : (paginationListing k).length - 2 < (paginationListing k).length) :
    (paginationListing k).get ⟨(paginationListing k).length - 2, h⟩ =
      LiEl.mk (toDecimal k) := by
  have hlen := paginationListing_length k
  rw [List.get_eq_getElem]
  have hidx : (paginationListing k).length - 2 = k - 1 := by omega
  simp only [hidx]
  simp only [paginationListing]
  rw [List.getElem_append_left
    (by simp only [List.length_map, List.length_range]; omega)]
  simp only [List.getElem_map, List.getElem_range]
  rw [Nat.sub_add_cancel hk]

/-- Claim C2: get_num_pages returns 1 for a markup with no pagination
control, and for a markup whose pagination control lists pages 1..k
followed by a next control it reads the second-to-last entry and returns
k. -/
theorem get_num_pages_spec (m : Markup) :
    (m.pagination = none → get_num_pages m = .ok 1) ∧
    (∀ k : Nat, 1 ≤ k → m.pagination = some (paginationListing k) →
      get_num_pages m = .ok (k : Int)) := by
  constructor
  · intro h
    simp only [get_num_pages, h]
  · intro k hk hp
    have hlen := paginationListing_length k
    simp only [get_num_pages, hp]
    rw [dif_pos (by omega)]
    rw [paginationListing_get k hk]
    rw [pyInt_toDecimal k (by omega)]

/-- Witness for claim C2 at k = 3 and at a pagination-free markup. -/
theorem get_num_pages_spec_witness :
    get_num_pages (Markup.mk (some (paginationListing 3)) []) = .ok 3 ∧
    get_num_pages (Markup.mk none []) = .ok 1 :=
  ⟨(get_num_pages_spec (Markup.mk (some (paginationListing 3)) [])).2 3
      (by omega) rfl,
    (get_num_pages_spec (Markup.mk none [])).1 rfl⟩

/-- Claim C10: get_num_pages is not total over page markups: a pagination
control with one entry, or with none, makes the negative index [-2] fault
(IndexError) instead of returning a page count. -/
theorem get_num_pages_short_pagination_faults :
    get_num_pages (Markup.mk (some [LiEl.mk "1"]) []) = .error .indexError ∧
    get_num_pages (Markup.mk (some []) []) = .error .indexError :=
  ⟨rfl, rfl⟩

/-!  Claims about the scrape orchestrator.  -/

theorem pagesLoop_eq_none (fetch : Nat → Option Markup) (p : Nat)
    (hfail : fetch p = none) :
    ∀ (ps : List Nat) (acc : List Product), p ∈ ps →
      pagesLoop fetch ps acc = none := by
  intro ps
  induction ps with
  | nil => intro acc hmem; cases hmem
  | cons q rest ih =>
    intro acc hmem
    by_cases hq : q = p
    · subst hq
      simp [pagesLoop, hfail]
    · have hrest : p ∈ rest := by
        cases hmem with
        | head => exact absurd rfl hq
        | tail _ h => exact h
      cases hfq : fetch q with
      | none => simp [pagesLoop, hfq]
      | some m =>
        cases hgm : get_single_page_products m with
        | error e => simp [pagesLoop, hfq, hgm]
        | ok prods =>
          simp only [pagesLoop, hfq, hgm]
          exact ih (acc ++ prods) hrest

/-- Claim C1: every listing-page fetch failure makes the orchestrator
return the empty collection (it never raises: the embedding is a total
function).  A first-page fetch failure returns []; a fetch failure on any
later page 2..N aborts the run and discards the products of all prior
pages, returning []. -/
theorem get_laptop_page_products_fetch_failure_empty
    (fetch : Nat → Option Markup) :
    (fetch 1 = none → get_laptop_page_products fetch = []) ∧
    (∀ (m1 : Markup) (n : Int) (p : Nat),
      fetch 1 = some m1 → get_num_pages m1 = .ok n →
      2 ≤ p → (p : Int) ≤ n → fetch p = none →
      get_laptop_page_products fetch = []) := by
  constructor
  · intro h
    simp only [get_laptop_page_products, h]
  · intro m1 n p h1 hn hp2 hpn hfail
    cases hgm : get_single_page_products m1 with
    | error e => simp [get_laptop_page_products, h1, hgm]
    | ok prods =>
      have hmem : p ∈ List.range' 2 (n - 1).toNat := by
        rw [List.mem_range'_1]
        omega
      have hloop := pagesLoop_eq_none fetch p hfail
        (List.range' 2 (n - 1).toNat) prods hmem
      simp only [get_laptop_page_products, h1, hgm, hn, hloop]

/-- Witness for claim C1: a world where every fetch fails, and a world
where page 1 succeeds (with a 3-page pagination control and one parseable
product) but page 2 fails. -/
def witBlock : ProductBlock :=
  ProductBlock.mk (some (TitleEl.mk (some "Laptop A") (some "/p/1")))
    (some (TextEl.mk "a laptop")) (some (TextEl.mk "$100"))
    (some "4") (some (TextEl.mk "10 reviews")) (DetailEnv.mk false [])

def witMarkup1 : Markup :=
  Markup.mk (some [LiEl.mk "1", LiEl.mk "2", LiEl.mk "3", LiEl.mk "next"])
    [witBlock]

def witFetchPage2Fails : Nat → Option Markup :=
  fun p => if p = 1 then some witMarkup1 else none

theorem get_laptop_page_products_fetch_failure_empty_witness :
    get_laptop_page_products (fun _ => none) = [] ∧
    get_laptop_page_products witFetchPage2Fails = [] :=
  ⟨(get_laptop_page_products_fetch_failure_empty (fun _ => none)).1 rfl,
    (get_laptop_page_products_fetch_failure_empty witFetchPage2Fails).2
      witMarkup1 3 2 rfl rfl (by omega) (by omega) rfl⟩

theorem pagesLoop_eq_some (fetch : Nat → Option Markup)
    (pages : Nat → List Product) :
    ∀ (ps : List Nat) (acc : List Product),
      (∀ p ∈ ps, ∃ mp, fetch p = some mp ∧
        get_single_page_products mp = .ok (pages p)) →
      pagesLoop fetch ps acc = some (acc ++ (ps.map pages).flatten) := by
  intro ps
  induction ps with
  | nil =>
    intro acc h
    simp [pagesLoop]
  | cons q rest ih =>
    intro acc h
    obtain ⟨mq, hfq, hgq⟩ := h q (List.mem_cons_self q rest)
    simp only [pagesLoop, hfq, hgq]
    rw [ih (acc ++ pages q) (fun p hp => h p (List.mem_cons_of_mem q hp))]
    simp [List.append_assoc]

/-- Claim C6: on a successful multi-page run the orchestrator returns the
products page by page, each page's products in document order: page 1
first (get_single_page_products preserves card order), then pages 2..N in
order. -/
theorem get_laptop_page_products_order (fetch : Nat → Option Markup)
    (m1 : Markup) (prods1 : List Product) (n : Int)
    (pages : Nat → List Product)
    (h1 : fetch 1 = some m1)
    (hp1 : get_single_page_products m1 = .ok prods1)
    (hn : get_num_pages m1 = .ok n)
    (hrest : ∀ p ∈ List.range' 2 (n - 1).toNat, ∃ mp, fetch p = some mp ∧
      get_single_page_products mp = .ok (pages p)) :
    get_laptop_page_products fetch =
      prods1 ++ ((List.range' 2 (n - 1).toNat).map pages).flatten := by
  have hloop := pagesLoop_eq_some fetch pages
    (List.range' 2 (n - 1).toNat) prods1 hrest
  simp only [get_laptop_page_products, h1, hp1, hn, hloop]

/-- Witness world for claim C6: page 1 has 2 product blocks and a
pagination control indicating 3 pages; pages 2 and 3 each have 2 blocks;
no block has pricing variants (the swatches group holds no buttons). -/
def c6Block (t : String) : ProductBlock :=
  ProductBlock.mk (some (TitleEl.mk (some t) (some "/p")))
    (some (TextEl.mk "d")) (some (TextEl.mk "$100"))
    (some "4") (some (TextEl.mk "10 reviews")) (DetailEnv.mk false [])

def c6Prod (t : String) : Product :=
  Product.mk t "d" (Dec.mk 100 0) 4 10 [("hdd_prices", [])]

def c6M1 : Markup :=
  Markup.mk (some [LiEl.mk "1", LiEl.mk "2", LiEl.mk "3", LiEl.mk "next"])
    [c6Block "A1", c6Block "A2"]

def c6M2 : Markup := Markup.mk none [c6Block "B1", c6Block "B2"]

def c6M3 : Markup := Markup.mk none [c6Block "C1", c6Block "C2"]

def c6Fetch : Nat → Option Markup :=
  fun p =>
    if p = 1 then some c6M1
    else if p = 2 then some c6M2
    else if p = 3 then some c6M3
    else none

def c6Pages : Nat → List Product :=
  fun p =>
    if p = 2 then [c6Prod "B1", c6Prod "B2"]
    else if p = 3 then [c6Prod "C1", c6Prod "C2"]
    else []

/-- Witness for claim C6: the world above yields the 6 products in
page-then-document order. -/
theorem get_laptop_page_products_order_witness :
    get_laptop_page_products c6Fetch =
      [c6Prod "A1", c6Prod "A2", c6Prod "B1", c6Prod "B2",
        c6Prod "C1", c6Prod "C2"] := by
  have hrest : ∀ p ∈ List.range' 2 ((3 : Int) - 1).toNat,
      ∃ mp, c6Fetch p = some mp ∧
        get_single_page_products mp = .ok (c6Pages p) := by
    intro p hp
    rw [List.mem_range'_1] at hp
    have hp23 : p = 2 ∨ p = 3 := by omega
    rcases hp23 with rfl | rfl
    · exact ⟨c6M2, rfl, rfl⟩
    · exact ⟨c6M3, rfl, rfl⟩
  rw [get_laptop_page_products_order c6Fetch c6M1 [c6Prod "A1", c6Prod "A2"]
    3 c6Pages rfl rfl rfl hrest]
  rfl

/-!  Claims about the dynamic price extractor.  -/

/-- Whether the button loop hits an exception: an enabled button whose
click or price read raises, or whose displayed price text fails float
parsing.  Disabled buttons are skipped and cannot fail. -/
def runFails : List SwatchButton → Bool
  | [] => false
  | b :: rest =>
      if b.disabled then runFails rest
      else if b.clickFails then true
      else
        match parseFloat (stripDollar b.priceText) with
        | none => true
        | some _ => runFails rest

/-- Whether parse_hdd_block_prices hits an exception anywhere in the
browser-side run: before the loop or inside it. -/
def detailRunFails (env : DetailEnv) : Bool :=
  env.preFails || runFails env.buttons

/-- The return value the spec claims for a failing run, written from the
spec words: abandon the remainder and return whatever was already
collected (the accumulated mapping up to the failing button), empty only
when the failure precedes any successful read. -/
def specCollectedButtons : List SwatchButton → List (String × Dec) →
    List (String × Dec)
  | [], acc => acc
  | b :: rest, acc =>
      if b.disabled then specCollectedButtons rest acc
      else if b.clickFails then acc
      else
        match parseFloat (stripDollar b.priceText) with
        | none => acc
        | some v => specCollectedButtons rest (dictInsert acc b.value v)

def specCollectedBeforeFailure (env : DetailEnv) : List (String × Dec) :=
  if env.preFails then [] else specCollectedButtons env.buttons []

/-- A detail page on which the first enabled button is read successfully
(value 128, price 100) and the click on the second enabled button
raises. -/
def c3Env : DetailEnv :=
  DetailEnv.mk false
    [SwatchButton.mk false false "128" "$100",
      SwatchButton.mk false true "256" "$200"]

def c3Block : ProductBlock :=
  ProductBlock.mk (some (TitleEl.mk (some "T") (some "/p"))) none none none
    none c3Env

/-- Claim C3 counterexample: on c3Block one configuration price (128 at
100) is collected before the click on the second button raises, yet
parse_hdd_block_prices returns the empty mapping, not the collected one
the spec claims. -/
theorem parse_hdd_block_prices_discards_partial_cex :
    parse_hdd_block_prices c3Block = [] ∧
    specCollectedBeforeFailure c3Env = [("128", Dec.mk 100 0)] ∧
    parse_hdd_block_prices c3Block ≠ specCollectedBeforeFailure c3Env :=
  ⟨rfl, rfl, by decide⟩

theorem hddLoop_eq_nil_of_runFails :
    ∀ (bs : List SwatchButton) (acc : List (String × Dec)),
      runFails bs = true → hddLoop bs acc = [] := by
  intro bs
  induction bs with
  | nil => intro acc h; simp [runFails] at h
  | cons b rest ih =>
    intro acc h
    by_cases hd : b.disabled
    · rw [runFails] at h
      rw [if_pos hd] at h
      rw [hddLoop, if_pos hd]
      exact ih acc h
    · rw [runFails, if_neg hd] at h
      rw [hddLoop, if_neg hd]
      by_cases hc : b.clickFails
      · rw [if_pos hc]
      · rw [if_neg hc] at h
        rw [if_neg hc]
        cases hp : parseFloat (stripDollar b.priceText) with
        | none => rfl
        | some v =>
          rw [hp] at h
          exact ih (dictInsert acc b.value v) h

/-- Claim C3 (amended): parse_hdd_block_prices never raises (it is total),
and on any exception mid-process - before the loop or at any enabled
button - it returns the EMPTY mapping, discarding the configuration
prices already collected before the failure, rather than returning them
as the spec claims. -/
theorem parse_hdd_block_prices_failure_empty (block : ProductBlock)
    (t : TitleEl) (u : String) (ht : block.titleEl = some t)
    (hu : t.hrefAttr = some u)
    (hfail : detailRunFails block.detail = true) :
    parse_hdd_block_prices block = [] := by
  simp only [parse_hdd_block_prices, ht, hu, hddRun]
  by_cases hpre : block.detail.preFails
  · rw [if_pos hpre]
  · rw [if_neg hpre]
    rw [detailRunFails] at hfail
    rw [Bool.or_eq_true] at hfail
    cases hfail with
    | inl h => exact absurd h (by simpa using hpre)
    | inr h => exact hddLoop_eq_nil_of_runFails block.detail.buttons [] h

/-- A failing detail page for the claim C3 witness: one successful read,
then a failing parse of a malformed price text. -/
def c3wEnv : DetailEnv :=
  DetailEnv.mk false
    [SwatchButton.mk false false "512" "$50",
      SwatchButton.mk false false "1024" "price pending"]

def c3wBlock : ProductBlock :=
  ProductBlock.mk (some (TitleEl.mk (some "W") (some "/q"))) none none none
    none c3wEnv

/-- Witness for the amended claim C3. -/
theorem parse_hdd_block_prices_failure_empty_witness :
    detailRunFails c3wEnv = true ∧ parse_hdd_block_prices c3wBlock = [] :=
  ⟨by decide,
    parse_hdd_block_prices_failure_empty c3wBlock (TitleEl.mk (some "W") (some "/q"))
      "/q" rfl rfl (by decide)⟩

/-- The enabled buttons of a swatches group, in document order. -/
def enabledButtons (bs : List SwatchButton) : List SwatchButton :=
  bs.filter (fun b => !b.disabled)

/-- The mapping an exception-free button loop produces, entry by entry:
nothing for a disabled button, the parsed clicked price keyed by the
button value for an enabled one. -/
def successMapping (bs : List SwatchButton) : List (String × Dec) :=
  bs.filterMap (fun b =>
    if b.disabled then none
    else (parseFloat (stripDollar b.priceText)).map (fun v => (b.value, v)))

/-- A detail page with two ENABLED buttons carrying the same value 128:
the dict write for the second overwrites the first. -/
def c4Env : DetailEnv :=
  DetailEnv.mk false
    [SwatchButton.mk false false "128" "$100",
      SwatchButton.mk false false "128" "$200"]

def c4Block : ProductBlock :=
  ProductBlock.mk (some (TitleEl.mk (some "T") (some "/p"))) none none none
    none c4Env

/-- Claim C4 counterexample: c4Block has two enabled buttons, but the
mapping has a single entry (keyed 128, holding the price of the LAST
button clicked), so it does not contain exactly one entry per enabled
button. -/
theorem parse_hdd_block_prices_duplicate_value_cex :
    parse_hdd_block_prices c4Block = [("128", Dec.mk 200 0)] ∧
    (enabledButtons c4Env.buttons).length = 2 ∧
    (parse_hdd_block_prices c4Block).length ≠
      (enabledButtons c4Env.buttons).length :=
  ⟨rfl, rfl, by decide⟩

theorem dictInsert_append (acc : List (String × Dec)) (k : String) (v : Dec)
    (h : ∀ kv ∈ acc, kv.1 ≠ k) : dictInsert acc k v = acc ++ [(k, v)] := by
  rw [dictInsert, if_neg]
  simp only [List.any_eq_true, decide_eq_true_eq, not_exists]
  intro kv hkv
  exact h kv hkv.1 hkv.2

theorem hddLoop_eq_successMapping :
    ∀ (bs : List SwatchButton) (acc : List (String × Dec)),
      runFails bs = false →
      (bs.map (fun b => b.value)).Nodup →
      (∀ kv ∈ acc, kv.1 ∉ bs.map (fun b => b.value)) →
      hddLoop bs acc = acc ++ successMapping bs := by
  intro bs
  induction bs with
  | nil =>
    intro acc h1 h2 h3
    simp [hddLoop, successMapping]
  | cons b rest ih =>
    intro acc hrf hnd hacc
    have hndr : (rest.map (fun x => x.value)).Nodup := by
      simp only [List.map_cons] at hnd
      exact hnd.of_cons
    by_cases hd : b.disabled
    · rw [runFails, if_pos hd] at hrf
      rw [hddLoop, if_pos hd]
      have hacc2 : ∀ kv ∈ acc, kv.1 ∉ rest.map (fun x => x.value) := by
        intro kv hkv hmem
        exact hacc kv hkv (by simp only [List.map_cons]; exact List.mem_cons_of_mem _ hmem)
      rw [ih acc hrf hndr hacc2]
      have hsm : successMapping (b :: rest) = successMapping rest := by
        simp [successMapping, hd]
      rw [hsm]
    · rw [runFails, if_neg hd] at hrf
      by_cases hc : b.clickFails
      · rw [if_pos hc] at hrf
        exact absurd hrf (by simp)
      · rw [if_neg hc] at hrf
        cases hp : parseFloat (stripDollar b.priceText) with
        | none =>
          rw [hp] at hrf
          exact absurd hrf (by simp)
        | some v =>
          rw [hp] at hrf
          simp only [hddLoop, if_neg hd, if_neg hc, hp]
          have hbk : ∀ kv ∈ acc, kv.1 ≠ b.value := by
            intro kv hkv heq
            exact hacc kv hkv (by simp only [List.map_cons, heq]; exact List.mem_cons_self _ _)
          rw [dictInsert_append acc b.value v hbk]
          have hbnotin : b.value ∉ rest.map (fun x => x.value) := by
            simp only [List.map_cons] at hnd
            exact (List.nodup_cons.mp hnd).1
          have hacc2 : ∀ kv ∈ acc ++ [(b.value, v)],
              kv.1 ∉ rest.map (fun x => x.value) := by
            intro kv hkv
            rcases List.mem_append.mp hkv with h1 | h1
            · intro hmem
              exact hacc kv h1 (by simp only [List.map_cons]; exact List.mem_cons_of_mem _ hmem)
            · have : kv = (b.value, v) := by simpa using h1
              rw [this]
              exact hbnotin
          rw [ih (acc ++ [(b.value, v)]) hrf hndr hacc2]
          have hsm : successMapping (b :: rest) =
              (b.value, v) :: successMapping rest := by
            simp [successMapping, hd, hp]
          rw [hsm]
          simp [List.append_assoc]

theorem successMapping_keys :
    ∀ bs : List SwatchButton, runFails bs = false →
      (successMapping bs).map Prod.fst =
        (enabledButtons bs).map (fun b => b.value) := by
  intro bs
  induction bs with
  | nil =>
    intro h
    simp [successMapping, enabledButtons]
  | cons b rest ih =>
    intro h
    by_cases hd : b.disabled
    · rw [runFails, if_pos hd] at h
      have hsm : successMapping (b :: rest) = successMapping rest := by
        simp [successMapping, hd]
      have hen : enabledButtons (b :: rest) = enabledButtons rest := by
        simp [enabledButtons, hd]
      rw [hsm, hen]
      exact ih h
    · rw [runFails, if_neg hd] at h
      by_cases hc : b.clickFails
      · rw [if_pos hc] at h
        exact absurd h (by simp)
      · rw [if_neg hc] at h
        cases hp : parseFloat (stripDollar b.priceText) with
        | none =>
          rw [hp] at h
          exact absurd h (by simp)
        | some v =>
          rw [hp] at h
          have hsm : successMapping (b :: rest) =
              (b.value, v) :: successMapping rest := by
            simp [successMapping, hd, hp]
          have hen : enabledButtons (b :: rest) = b :: enabledButtons rest := by
            simp [enabledButtons, hd]
          rw [hsm, hen]
          simp only [List.map_cons]
          rw [ih h]

/-- Claim C4 (amended): on a detail page whose extraction completes
without exception (otherwise the empty mapping is returned, see the
failure claim) and whose buttons carry pairwise-distinct values, the
mapping never contains a key of a disabled button, and contains exactly
one entry per enabled button - its keys are the enabled-button values in
document order - each entry holding the decimal price displayed after
clicking that button.  With duplicate values the later write overwrites
the earlier, as the counterexample shows. -/
theorem parse_hdd_block_prices_enabled_entries (block : ProductBlock)
    (t : TitleEl) (u : String) (ht : block.titleEl = some t)
    (hu : t.hrefAttr = some u)
    (hpre : block.detail.preFails = false)
    (hok : runFails block.detail.buttons = false)
    (hnd : (block.detail.buttons.map (fun b => b.value)).Nodup) :
    (parse_hdd_block_prices block).map Prod.fst =
      (enabledButtons block.detail.buttons).map (fun b => b.value) ∧
    (∀ b ∈ block.detail.buttons, b.disabled = false →
      ∀ v, parseFloat (stripDollar b.priceText) = some v →
        (b.value, v) ∈ parse_hdd_block_prices block) ∧
    (∀ b ∈ block.detail.buttons, b.disabled = true →
      ∀ v, (b.value, v) ∉ parse_hdd_block_prices block) := by
  have hmain : parse_hdd_block_prices block =
      successMapping block.detail.buttons := by
    simp only [parse_hdd_block_prices, ht, hu, hddRun, hpre, Bool.false_eq_true,
      if_false]
    exact hddLoop_eq_successMapping block.detail.buttons [] hok hnd (by simp)
  refine ⟨?_, ?_, ?_⟩
  · rw [hmain]
    exact successMapping_keys block.detail.buttons hok
  · intro b hb hbd v hv
    rw [hmain]
    rw [successMapping, List.mem_filterMap]
    refine ⟨b, hb, ?_⟩
    rw [if_neg (by simp [hbd]), hv]
    rfl
  · intro b hb hbd v hv
    rw [hmain, successMapping, List.mem_filterMap] at hv
    obtain ⟨x, hx, hfx⟩ := hv
    by_cases hxd : x.disabled
    · rw [if_pos hxd] at hfx
      exact Option.noConfusion hfx
    · rw [if_neg hxd] at hfx
      cases hpx : parseFloat (stripDollar x.priceText) with
      | none =>
        rw [hpx] at hfx
        exact Option.noConfusion hfx
      | some w =>
        rw [hpx] at hfx
        have hxv : x.value = b.value := by
          have := Option.some.inj hfx
          exact congrArg Prod.fst this
        have hxb : x = b :=
          List.inj_on_of_nodup_map hnd hx hb hxv
        rw [hxb] at hxd
        exact hxd (by rw [hbd])

/-- Witness world for the amended claim C4: three buttons with distinct
values, the second disabled, matching the end-to-end scenario of the
spec; exactly 2 entries result. -/
def c4wEnv : DetailEnv :=
  DetailEnv.mk false
    [SwatchButton.mk false false "128" "$95.99",
      SwatchButton.mk true false "256" "$95.99",
      SwatchButton.mk false false "512" "$120"]

def c4wBlock : ProductBlock :=
  ProductBlock.mk (some (TitleEl.mk (some "W") (some "/q"))) none none none
    none c4wEnv

/-- Witness for the amended claim C4. -/
theorem parse_hdd_block_prices_enabled_entries_witness :
    runFails c4wEnv.buttons = false ∧
    (c4wEnv.buttons.map (fun b => b.value)).Nodup ∧
    (parse_hdd_block_prices c4wBlock).map Prod.fst = ["128", "512"] := by
  refine ⟨by decide, by decide, ?_⟩
  rw [(parse_hdd_block_prices_enabled_entries c4wBlock
    (TitleEl.mk (some "W") (some "/q")) "/q" rfl rfl rfl (by decide)
    (by decide)).1]
  rfl

/-!  Claim about the retry configuration.  -/

/-- Claim C5: a request is retried only when it is a GET, its status is
one of 429/500/502/503/504 and fewer than 3 attempts were made; every
such combination is retried; and the backoff starts at 1 unit and doubles
between attempts. -/
theorem retry_strategy_spec :
    (∀ (method : String) (status retriesSoFar : Nat),
      shouldRetry retry_strategy method status retriesSoFar = true →
      method = "GET" ∧
        (status = 429 ∨ status = 500 ∨ status = 502 ∨ status = 503 ∨
          status = 504) ∧ retriesSoFar < 3) ∧
    (∀ status ∈ [429, 500, 502, 503, 504], ∀ retriesSoFar < 3,
      shouldRetry retry_strategy "GET" status retriesSoFar = true) ∧
    backoff retry_strategy 1 = 1 ∧
    (∀ k, 1 ≤ k →
      backoff retry_strategy (k + 1) = 2 * backoff retry_strategy k) := by
  refine ⟨?_, ?_, rfl, ?_⟩
  · intro method status r h
    simp only [shouldRetry, retry_strategy, Bool.and_eq_true,
      decide_eq_true_eq] at h
    obtain ⟨⟨hm, hs⟩, hr⟩ := h
    refine ⟨by simpa using hm, ?_, hr⟩
    simpa using hs
  · intro status hs r hr
    fin_cases hs <;>
      simp [shouldRetry, retry_strategy, hr]
  · intro k hk
    show (1 : Nat) * 2 ^ (k + 1 - 1) = 2 * ((1 : Nat) * 2 ^ (k - 1))
    have hk1 : k + 1 - 1 = (k - 1) + 1 := by omega
    rw [hk1, pow_succ]
    ring

/-- Witness for claim C5: a GET with status 503 on the second retry is
retried; 503 is indeed forced and 2 < 3; the backoff doubles from the
first to the second retry. -/
theorem retry_strategy_spec_witness :
    shouldRetry retry_strategy "GET" 503 2 = true ∧
    ("GET" = "GET" ∧
      (503 = 429 ∨ 503 = 500 ∨ 503 = 502 ∨ 503 = 503 ∨ 503 = 504) ∧
      2 < 3) ∧
    backoff retry_strategy 2 = 2 * backoff retry_strategy 1 :=
  ⟨retry_strategy_spec.2.1 503 (by decide) 2 (by decide),
    retry_strategy_spec.1 "GET" 503 2 (by decide),
    retry_strategy_spec.2.2.2 1 (by omega)⟩

/-!  Claims about the product parser.  -/

/-- Inversion of a successful parse: every selector found its element,
every attribute was present, every numeric parse succeeded, and the
fields hold exactly the extracted values. -/
theorem parse_single_product_ok_inversion (block : ProductBlock)
    (p : Product) (h : parse_single_product block = .ok p) :
    ∃ tEl pEl rStr revEl tok,
      block.titleEl = some tEl ∧ tEl.titleAttr = some p.title ∧
      (∃ dEl, block.descriptionEl = some dEl ∧ dEl.text = p.description) ∧
      block.priceEl = some pEl ∧
      parseFloat (stripDollar pEl.text) = some p.price ∧
      block.ratingAttr = some rStr ∧ pyInt rStr = some p.rating ∧
      block.reviewEl = some revEl ∧
      (splitWs revEl.text).head? = some tok ∧
      pyInt tok = some p.num_of_reviews ∧
      p.additional_info = [("hdd_prices", parse_hdd_block_prices block)] := by
  cases ht : block.titleEl with
  | none => simp [parse_single_product, ht] at h
  | some tEl =>
  cases hta : tEl.titleAttr with
  | none => simp [parse_single_product, ht, hta] at h
  | some titleVal =>
  cases hdq : block.descriptionEl with
  | none => simp [parse_single_product, ht, hta, hdq] at h
  | some dEl =>
  cases hpq : block.priceEl with
  | none => simp [parse_single_product, ht, hta, hdq, hpq] at h
  | some pEl =>
  cases hpf : parseFloat (stripDollar pEl.text) with
  | none => simp [parse_single_product, ht, hta, hdq, hpq, hpf] at h
  | some priceVal =>
  cases hra : block.ratingAttr with
  | none => simp [parse_single_product, ht, hta, hdq, hpq, hpf, hra] at h
  | some rStr =>
  cases hri : pyInt rStr with
  | none => simp [parse_single_product, ht, hta, hdq, hpq, hpf, hra, hri] at h
  | some ratingVal =>
  cases hrev : block.reviewEl with
  | none =>
    simp [parse_single_product, ht, hta, hdq, hpq, hpf, hra, hri, hrev] at h
  | some revEl =>
  cases htok : (splitWs revEl.text).head? with
  | none =>
    simp [parse_single_product, ht, hta, hdq, hpq, hpf, hra, hri, hrev,
      htok] at h
  | some tok =>
  cases hti : pyInt tok with
  | none =>
    simp [parse_single_product, ht, hta, hdq, hpq, hpf, hra, hri, hrev, htok,
      hti] at h
  | some revVal =>
  have hv : parse_single_product block = .ok
      (Product.mk titleVal dEl.text priceVal ratingVal revVal
        [("hdd_prices", parse_hdd_block_prices block)]) := by
    simp only [parse_single_product, ht, hta, hdq, hpq, hpf, hra, hri, hrev,
      htok, hti]
  rw [hv] at h
  have hpeq := Except.ok.inj h
  subst hpeq
  exact ⟨tEl, pEl, rStr, revEl, tok, rfl, hta, ⟨dEl, rfl, rfl⟩, rfl, hpf, rfl,
    hri, rfl, htok, hti, rfl⟩

/-- Claim C7: a successfully parsed Product is built exactly by the
documented extraction rules: title from the title attribute of the
.title element, price from the price text with the currency symbol
stripped parsed as a decimal, num_of_reviews from the first
whitespace-delimited token of the review-count text parsed as an
integer, and additional_info holding exactly the key hdd_prices. -/
theorem parse_single_product_fields (block : ProductBlock) (p : Product)
    (h : parse_single_product block = .ok p) :
    (∃ tEl, block.titleEl = some tEl ∧ tEl.titleAttr = some p.title) ∧
    (∃ pEl, block.priceEl = some pEl ∧
      parseFloat (stripDollar pEl.text) = some p.price) ∧
    (∃ revEl tok, block.reviewEl = some revEl ∧
      (splitWs revEl.text).head? = some tok ∧
      pyInt tok = some p.num_of_reviews) ∧
    p.additional_info = [("hdd_prices", parse_hdd_block_prices block)] := by
  obtain ⟨tEl, pEl, rStr, revEl, tok, h1, h2, _, h4, h5, _, _, h8, h9, h10,
    h11⟩ := parse_single_product_ok_inversion block p h
  exact ⟨⟨tEl, h1, h2⟩, ⟨pEl, h4, h5⟩, ⟨revEl, tok, h8, h9, h10⟩, h11⟩

/-- A fully well-formed product block for the claim C7 witness. -/
def c7Block : ProductBlock :=
  ProductBlock.mk (some (TitleEl.mk (some "Asus ROG") (some "/p/7")))
    (some (TextEl.mk "fast")) (some (TextEl.mk "$1099.50"))
    (some "5") (some (TextEl.mk "21 reviews"))
    (DetailEnv.mk false [SwatchButton.mk false false "256" "$1099.50"])

def c7Prod : Product :=
  Product.mk "Asus ROG" "fast" (Dec.mk 10995 1) 5 21
    [("hdd_prices", [("256", Dec.mk 10995 1)])]

/-- Witness for claim C7. -/
theorem parse_single_product_fields_witness :
    parse_single_product c7Block = .ok c7Prod ∧
    c7Prod.additional_info =
      [("hdd_prices", parse_hdd_block_prices c7Block)] :=
  ⟨rfl, (parse_single_product_fields c7Block c7Prod rfl).2.2.2⟩

/-- Claim C9: a parse failure of a single product block - a selector
returning nothing, a missing attribute, or a non-numeric field - is not
caught inside parse_single_product: the function surfaces the exception
to its caller rather than returning a Product. -/
theorem parse_single_product_propagates (block : ProductBlock)
    (hbad :
      block.titleEl = none ∨
      (∃ tEl, block.titleEl = some tEl ∧ tEl.titleAttr = none) ∨
      block.descriptionEl = none ∨
      block.priceEl = none ∨
      (∃ pEl, block.priceEl = some pEl ∧
        parseFloat (stripDollar pEl.text) = none) ∨
      block.ratingAttr = none ∨
      (∃ rStr, block.ratingAttr = some rStr ∧ pyInt rStr = none) ∨
      block.reviewEl = none ∨
      (∃ revEl, block.reviewEl = some revEl ∧
        ((splitWs revEl.text).head? = none ∨
          ∃ tok, (splitWs revEl.text).head? = some tok ∧
            pyInt tok = none))) :
    ∃ e, parse_single_product block = .error e := by
  cases hres : parse_single_product block with
  | error e => exact ⟨e, rfl⟩
  | ok p =>
    exfalso
    obtain ⟨tEl, pEl, rStr, revEl, tok, h1, h2, ⟨dEl, h3, _⟩, h4, h5, h6, h7,
      h8, h9, h10, _⟩ := parse_single_product_ok_inversion block p hres
    rcases hbad with hb | hb | hb | hb | hb | hb | hb | hb | hb
    · rw [hb] at h1; exact Option.noConfusion h1
    · obtain ⟨tEl2, he, hn⟩ := hb
      rw [h1] at he
      rw [← Option.some.inj he] at hn
      rw [hn] at h2
      exact Option.noConfusion h2
    · rw [hb] at h3; exact Option.noConfusion h3
    · rw [hb] at h4; exact Option.noConfusion h4
    · obtain ⟨pEl2, he, hn⟩ := hb
      rw [h4] at he
      rw [← Option.some.inj he] at hn
      rw [hn] at h5
      exact Option.noConfusion h5
    · rw [hb] at h6; exact Option.noConfusion h6
    · obtain ⟨rStr2, he, hn⟩ := hb
      rw [h6] at he
      rw [← Option.some.inj he] at hn
      rw [hn] at h7
      exact Option.noConfusion h7
    · rw [hb] at h8; exact Option.noConfusion h8
    · obtain ⟨revEl2, he, hn⟩ := hb
      rw [h8] at he
      rw [Option.some.inj he] at h9
      rcases hn with hn | ⟨tok2, he2, hn⟩
      · rw [hn] at h9; exact Option.noConfusion h9
      · rw [h9] at he2
        rw [← Option.some.inj he2] at hn
        rw [hn] at h10
        exact Option.noConfusion h10

/-- A block whose title selector finds nothing, for the claim C9
witness. -/
def c9Block : ProductBlock :=
  ProductBlock.mk none none none none none (DetailEnv.mk true [])

/-- Witness for claim C9. -/
theorem parse_single_product_propagates_witness :
    (∃ e, parse_single_product c9Block = .error e) ∧
    parse_single_product c9Block = .error .attrError :=
  ⟨parse_single_product_propagates c9Block (Or.inl rfl), rfl⟩

/-!  Claim about the record writer.  -/

/-- Claim C8: the output columns are the declared Product fields in
declaration order: the header row is PRODUCT_FIELDS (whose length is the
number of declared fields), every data row has that same length, and the
cell at position i of every serialized product is the value of the field
named PRODUCT_FIELDS[i]. -/
theorem write_products_to_csv_columns (products : List Product) :
    (write_products_to_csv products).head? =
      some (PRODUCT_FIELDS.map CsvCell.str) ∧
    (∀ row ∈ write_products_to_csv products,
      row.length = PRODUCT_FIELDS.length) ∧
    (∀ (p : Product) (i : Nat),
      (astupleProduct p).get? i = (PRODUCT_FIELDS.get? i).bind (fieldCell p)) := by
  refine ⟨rfl, ?_, ?_⟩
  · intro row hrow
    rw [write_products_to_csv] at hrow
    rcases List.mem_cons.mp hrow with h | h
    · rw [h]
      rfl
    · obtain ⟨p, hp, hrow2⟩ := List.mem_map.mp h
      rw [← hrow2]
      rfl
  · intro p i
    match i with
    | 0 => rfl
    | 1 => rfl
    | 2 => rfl
    | 3 => rfl
    | 4 => rfl
    | 5 => rfl
    | n + 6 => rfl

def c8Prod : Product :=
  Product.mk "X" "d" (Dec.mk 5 0) 5 1 [("hdd_prices", [])]

/-- Witness for claim C8. -/
theorem write_products_to_csv_columns_witness :
    (write_products_to_csv [c8Prod]).head? =
      some (PRODUCT_FIELDS.map CsvCell.str) ∧
    (astupleProduct c8Prod).length = PRODUCT_FIELDS.length ∧
    (astupleProduct c8Prod).get? 2 =
      (PRODUCT_FIELDS.get? 2).bind (fieldCell c8Prod) :=
  ⟨(write_products_to_csv_columns [c8Prod]).1,
    (write_products_to_csv_columns [c8Prod]).2.1 (astupleProduct c8Prod)
      (List.mem_cons_of_mem _ (List.mem_map.mpr ⟨c8Prod, List.mem_cons_self _ _, rfl⟩)),
    (write_products_to_csv_columns [c8Prod]).2.2 c8Prod 2⟩
